import Mathlib

/-!
Shallow embedding of the AI-SCRIBBLE room/round core.

The definitions below translate the backend game-manager module (the file
exporting createRoom, resetGame, nextTurn, addPlayerToRoom,
removePlayerFromRoom, startNewRound, setDrawing, recordGuess,
endCurrentRound, stopRoundTimer, startRoundTimer, computeScores,
getScoreboard) and the socket server's round-scheduling handlers
(startNextRoundAuto, the playerGuess handler, the onAIGuess callback).

JavaScript `Map` objects are embedded as insertion-ordered association
lists; `Map.set` on a fresh key appends, on an existing key replaces in
place.  Thrown errors are embedded as `Except GameError`; functions that
return `null`/`[]` instead of throwing keep that shape (`Option`, `List`).
`Date.now()` and the randomly chosen word / drawing result are passed as
explicit parameters.
-/

namespace AIScribble

/-- A room participant.  Human players are created with only id, name and
score; AI agents additionally carry `isAI := true` and a model id (in the
source these extra fields are attached at room creation, and are absent -
hence falsy - on humans). -/
structure Player where
  id : String
  name : String
  score : Nat
  isAI : Bool
  modelId : Option String
deriving DecidableEq

/-- Round lifecycle state: 'drawing' | 'guessing' | 'ended'. -/
inductive RoundState where
  | drawing
  | guessing
  | ended
deriving DecidableEq

/-- One entry of a round's guess list. -/
structure GuessRec where
  playerId : String
  guess : String
  correct : Bool
deriving DecidableEq

/-- A round, as stored on the room. -/
structure Round where
  roundNumber : Nat
  word : String
  drawerId : String
  modelId : String
  startTime : Nat
  guesses : List GuessRec
  state : RoundState
  svg : Option String
  pngBase64 : Option String
deriving DecidableEq

/-- Room status: 'waiting' | 'in-game'. -/
inductive RoomStatus where
  | waiting
  | inGame
deriving DecidableEq

/-- A game room. `players` embeds the insertion-ordered `Map<string, Player>`. -/
structure Room where
  id : String
  players : List Player
  currentRound : Option Round
  history : List Round
  status : RoomStatus
deriving DecidableEq

/-- `room.players.get(pid)` on the insertion-ordered player map. -/
def playersGet (ps : List Player) (pid : String) : Option Player :=
  ps.find? (fun p => p.id == pid)

/-- `room.players.has(pid)`. -/
def playersHas (ps : List Player) (pid : String) : Bool :=
  (playersGet ps pid).isSome

/-- In-place mutation `players.get(pid).score += d` (ids are unique, so the
map touches at most the one matching entry). -/
def addScore (ps : List Player) (pid : String) (d : Nat) : List Player :=
  ps.map (fun p => if p.id == pid then { p with score := p.score + d } else p)

/-- The global in-memory room registry `rooms : Map<string, Room>`. -/
abbrev RoomStore := List (String × Room)

/-- `rooms.get(roomId)`. -/
def getRoomEntry : RoomStore → String → Option Room
  | [], _ => none
  | e :: rest, roomId => if e.1 == roomId then some e.2 else getRoomEntry rest roomId

/-- `rooms.set(roomId, r)`: replace in place if present, else append. -/
def setRoomEntry : RoomStore → String → Room → RoomStore
  | [], roomId, r => [(roomId, r)]
  | e :: rest, roomId, r =>
      if e.1 == roomId then (roomId, r) :: rest else e :: setRoomEntry rest roomId r

/-- Model of JavaScript `toLowerCase()`: per-character ASCII case folding. -/
def jsToLower (s : String) : String := ⟨s.data.map Char.toLower⟩

/-- Model of JavaScript `trim()`: strips leading and trailing whitespace. -/
def jsTrim (s : String) : String :=
  ⟨((s.data.dropWhile Char.isWhitespace).reverse.dropWhile Char.isWhitespace).reverse⟩

/-- Model of JavaScript `startsWith(pre)`. -/
def jsStartsWith (s pre : String) : Bool := pre.data.isPrefixOf s.data

/-- The errors this core throws (`new Error(...)` in the source). -/
inductive GameError where
  | roomExists (roomId : String)
  | roomNotFound (roomId : String)
  | roomOrRoundNotFound
deriving DecidableEq

/-- The fixed `AI_AGENTS` roster seeded into every new room. -/
def AI_AGENTS : List (String × String × String) :=
  [("ai-gemini", "Gemini", "google/gemini-1.5-pro"),
   ("ai-chatgpt", "ChatGPT", "openai/gpt-4o"),
   ("ai-claude", "Claude", "anthropic/claude-3-5-sonnet"),
   ("ai-llama", "Llama", "meta/llama-3-70b"),
   ("ai-mistral", "Mistral", "mistralai/mistral-large")]

/-- The player entries created for the agents at room creation. -/
def initialAgents : List Player :=
  AI_AGENTS.map (fun a =>
    { id := a.1, name := a.2.1, score := 0, isAI := true, modelId := some a.2.2 })

/-- `createRoom(roomId)`: fails if the id is taken, otherwise registers a
fresh room pre-seeded with the five AI agents. -/
def createRoom (s : RoomStore) (roomId : String) : Except GameError (Room × RoomStore) :=
  if (getRoomEntry s roomId).isSome then
    .error (.roomExists roomId)
  else
    let newRoom : Room :=
      { id := roomId, players := initialAgents, currentRound := none,
        history := [], status := .waiting }
    .ok (newRoom, setRoomEntry s roomId newRoom)

/-- `getRoom(roomId)`: lookup, never throws. -/
def getRoom (s : RoomStore) (roomId : String) : Option Room :=
  getRoomEntry s roomId

/-- `resetGame(roomId)`: throws when the room is absent; otherwise clears the
round, history and status and zeroes every player's score in place. -/
def resetGame (s : RoomStore) (roomId : String) : Except GameError (Room × RoomStore) :=
  match getRoom s roomId with
  | none => .error (.roomNotFound roomId)
  | some room =>
      let room' : Room :=
        { room with currentRound := none, history := [], status := .waiting,
                    players := room.players.map (fun p => { p with score := 0 }) }
      .ok (room', setRoomEntry s roomId room')

/-- `nextTurn(roomId)`: returns null when the room is absent; otherwise picks
the AI agent at index `history.length % aiPlayers.length` of the agent list.
(When the agent list is empty the source would fault on an undefined index;
every room is seeded with five agents, so that branch is unreachable and is
embedded as `none`.) -/
def nextTurn (s : RoomStore) (roomId : String) : Option (String × Option String) :=
  match getRoom s roomId with
  | none => none
  | some room =>
      let aiPlayers := room.players.filter (fun p => p.isAI)
      let nextIndex := room.history.length % aiPlayers.length
      match aiPlayers.get? nextIndex with
      | none => none
      | some nextDrawer => some (nextDrawer.id, nextDrawer.modelId)

/-- `addPlayerToRoom(roomId, playerId, playerName)`: throws when the room is
absent; re-adding an existing id is a no-op; returns the player list. -/
def addPlayerToRoom (s : RoomStore) (roomId playerId playerName : String) :
    Except GameError (List Player × RoomStore) :=
  match getRoom s roomId with
  | none => .error (.roomNotFound roomId)
  | some room =>
      if playersHas room.players playerId then
        .ok (room.players, s)
      else
        let room' : Room :=
          { room with players := room.players ++
              [{ id := playerId, name := playerName, score := 0,
                 isAI := false, modelId := none }] }
        .ok (room'.players, setRoomEntry s roomId room')

/-- `removePlayerFromRoom(roomId, playerId)`: returns `[]` when the room is
absent (no error); otherwise deletes the entry and returns the player list. -/
def removePlayerFromRoom (s : RoomStore) (roomId playerId : String) :
    List Player × RoomStore :=
  match getRoom s roomId with
  | none => ([], s)
  | some room =>
      let room' : Room := { room with players := room.players.filter (fun p => p.id != playerId) }
      (room'.players, setRoomEntry s roomId room')

/-- `startNewRound(roomId, drawerId, word, modelId)`: throws when the room is
absent; otherwise installs a fresh current round numbered
`history.length + 1` whose word is the lowercased (not trimmed) input. -/
def startNewRound (s : RoomStore) (roomId drawerId word modelId : String) (now : Nat) :
    Except GameError (Round × RoomStore) :=
  match getRoom s roomId with
  | none => .error (.roomNotFound roomId)
  | some room =>
      let newRound : Round :=
        { roundNumber := room.history.length + 1,
          word := jsToLower word,
          drawerId := drawerId,
          modelId := modelId,
          startTime := now,
          guesses := [],
          state := .drawing,
          svg := none,
          pngBase64 := none }
      let room' : Room := { room with status := .inGame, currentRound := some newRound }
      .ok (newRound, setRoomEntry s roomId room')

/-- `setDrawing(roomId, svg, pngBase64)`: throws when the room or its current
round is absent; otherwise attaches the artifacts and moves to `guessing`. -/
def setDrawing (s : RoomStore) (roomId svg png : String) : Except GameError RoomStore :=
  match getRoom s roomId with
  | none => .error .roomOrRoundNotFound
  | some room =>
      match room.currentRound with
      | none => .error .roomOrRoundNotFound
      | some cr =>
          let cr' : Round := { cr with svg := some svg, pngBase64 := some png, state := .guessing }
          .ok (setRoomEntry s roomId { room with currentRound := some cr' })

/-- `computeScores(room, correctGuesserId)`: +10 to the guesser when present;
then, when the just-recorded correct guess is the first of the round and the
drawer id is not the literal string "ai", +10 to the drawer when present. -/
def computeScores (room : Room) (correctGuesserId : String) : Room :=
  match room.currentRound with
  | none => room
  | some cr =>
      let drawerId := cr.drawerId
      let scoreAmount := 10
      let players1 :=
        if playersHas room.players correctGuesserId then
          addScore room.players correctGuesserId scoreAmount
        else room.players
      let correctGuesses := (cr.guesses.filter (fun g => g.correct)).length
      let players2 :=
        if correctGuesses == 1 && drawerId != "ai" then
          if playersHas players1 drawerId then addScore players1 drawerId scoreAmount
          else players1
        else players1
      { room with players := players2 }

/-- `recordGuess(roomId, playerId, guess)`: throws when the room or round is
absent; a player who already has a guess record gets `correct = false` and no
mutation; otherwise the guess is appended (correct iff the lowercased,
trimmed guess equals the stored word) and, when correct, scores are applied. -/
def recordGuess (s : RoomStore) (roomId playerId guess : String) :
    Except GameError ((Round × Bool) × RoomStore) :=
  match getRoom s roomId with
  | none => .error .roomOrRoundNotFound
  | some room =>
      match room.currentRound with
      | none => .error .roomOrRoundNotFound
      | some cr =>
          let normalizedGuess := jsTrim (jsToLower guess)
          let correct := normalizedGuess == cr.word
          let playerGuessedBefore := cr.guesses.any (fun g => g.playerId == playerId)
          if playerGuessedBefore then
            .ok ((cr, false), s)
          else
            let cr' : Round :=
              { cr with guesses := cr.guesses ++
                  [{ playerId := playerId, guess := guess, correct := correct }] }
            let room1 : Room := { room with currentRound := some cr' }
            let room2 := if correct then computeScores room1 playerId else room1
            .ok ((cr', correct), setRoomEntry s roomId room2)

/-- `endCurrentRound(roomId)`: returns null (no error) when the room or round
is absent; otherwise marks the round ended, appends it to history, clears
`currentRound` and sets the status back to waiting. -/
def endCurrentRound (s : RoomStore) (roomId : String) : Option Round × RoomStore :=
  match getRoom s roomId with
  | none => (none, s)
  | some room =>
      match room.currentRound with
      | none => (none, s)
      | some cr =>
          let endedRound : Round := { cr with state := .ended }
          let room' : Room :=
            { room with history := room.history ++ [endedRound],
                        currentRound := none, status := .waiting }
          (some endedRound, setRoomEntry s roomId room')

/-- `getScoreboard(roomId)`: `[]` when the room is absent; otherwise the
players sorted by descending score with 1-based ranks. -/
def getScoreboard (s : RoomStore) (roomId : String) : List (String × String × Nat × Nat) :=
  match getRoom s roomId with
  | none => []
  | some room =>
      let sorted := room.players.mergeSort (fun a b => decide (b.score ≤ a.score))
      (sorted.enum.map (fun e => (e.2.id, e.2.name, e.2.score, e.1 + 1)))

/-! ### Round-timer model

`roomIntervals : Map<string, Timeout>` together with the Node timer wheel.
An interval is identified by a fresh numeric id; `active` is the set of
interval ids currently scheduled (the ids `clearInterval` has not yet
discarded), and `roomIntervals` is the per-room map of the source. -/

structure TimerSys where
  nextId : Nat
  active : List Nat
  roomIntervals : List (String × Nat)
deriving DecidableEq

/-- The timer system before any timer was started. -/
def TimerSys.initial : TimerSys := { nextId := 0, active := [], roomIntervals := [] }

/-- `roomIntervals.get(roomId)`. -/
def intervalsGet (m : List (String × Nat)) (roomId : String) : Option Nat :=
  (m.find? (fun e => e.1 == roomId)).map (fun e => e.2)

/-- `clearInterval(i)`: discards the tick source `i` if scheduled. -/
def clearTimerInterval (t : TimerSys) (i : Nat) : TimerSys :=
  { t with active := t.active.erase i }

/-- `stopRoundTimer(roomId)`: clears and forgets the room's interval when the
map has one; otherwise does nothing. -/
def stopRoundTimer (t : TimerSys) (roomId : String) : TimerSys :=
  match intervalsGet t.roomIntervals roomId with
  | none => t
  | some i =>
      { (clearTimerInterval t i) with
          roomIntervals := t.roomIntervals.filter (fun e => e.1 != roomId) }

/-- `startRoundTimer(roomId, callbacks)`: first stops any existing timer for
the room, then schedules a fresh interval and records it in the map. -/
def startRoundTimer (t : TimerSys) (roomId : String) : TimerSys :=
  let t1 := stopRoundTimer t roomId
  { nextId := t1.nextId + 1,
    active := t1.nextId :: t1.active,
    roomIntervals := (roomId, t1.nextId) :: t1.roomIntervals }

/-- Well-formedness of the timer system: the scheduled tick sources are
exactly the mapped intervals, each room maps at most one interval, and every
recorded id is below the fresh-id counter. -/
def TimerSys.wf (t : TimerSys) : Prop :=
  t.active = t.roomIntervals.map (fun e => e.2) ∧
  (t.roomIntervals.map (fun e => e.1)).Nodup ∧
  (t.roomIntervals.map (fun e => e.2)).Nodup ∧
  (∀ i ∈ t.active, i < t.nextId)

/-! ### Countdown model

The body of the interval callback of `startRoundTimer`, restricted to the
state it reads and writes through the timer: the running flag (whether the
interval is still scheduled), the remaining seconds, and the number of
`onTick` / `onTimeUp` invocations.  The AI-simulation branch at the end of
the callback mutates only room state, never the countdown, so it does not
appear here.  `roomActive` is the guard `room && room.currentRound &&
room.currentRound.state !== 'ended'` evaluated at this tick. -/

structure CountdownState where
  running : Bool
  timeLeft : Nat
  tickCalls : Nat
  timeUpCalls : Nat
deriving DecidableEq

/-- One firing opportunity of the interval: a cleared interval does nothing;
a dead room stops the timer silently; otherwise the countdown decrements,
`onTick` fires, and at zero the timer stops itself and fires `onTimeUp`. -/
def timerTick (roomActive : Bool) (st : CountdownState) : CountdownState :=
  if !st.running then st
  else if !roomActive then { st with running := false }
  else
    let tl := st.timeLeft - 1
    let st1 := { st with timeLeft := tl, tickCalls := st.tickCalls + 1 }
    if tl = 0 then { st1 with running := false, timeUpCalls := st1.timeUpCalls + 1 }
    else st1

/-- `n` consecutive firing opportunities with the room alive throughout. -/
def runTicks (n : Nat) (st : CountdownState) : CountdownState :=
  match n with
  | 0 => st
  | n + 1 => runTicks n (timerTick true st)

/-- The countdown state right after `startRoundTimer` installs the interval
(`let timeLeft = 60`). -/
def freshCountdown : CountdownState :=
  { running := true, timeLeft := 60, tickCalls := 0, timeUpCalls := 0 }

/-! ### Scheduler model (socket server)

`startNextRoundAuto` and the two guess paths of the server file.  The
`activeRoundTransitions : Set<string>` of the source is declared inside the
`io.on('connection', ...)` closure, so every socket connection owns an
independent set; the model keys these sets by the connection's socket id.
The scheduler state combines the room store, the per-connection transition
sets, the `setTimeout` callbacks scheduled but not yet run (each tagged
with the connection whose closure scheduled it, since its `finally` clause
deletes from that connection's set), and the timer system. -/

/-- The per-connection `activeRoundTransitions` sets: socket id of the
connection → contents of that connection handler's `Set<string>`. -/
abbrev TransitionSets := List (String × List String)

/-- The set owned by connection `conn` (a connection with no entry has the
fresh empty set its handler declared). -/
def transitionsOf (ms : TransitionSets) (conn : String) : List String :=
  ((ms.find? (fun e => e.1 == conn)).map (fun e => e.2)).getD []

/-- Replace connection `conn`'s set (in place if present, else append). -/
def setTransitions : TransitionSets → String → List String → TransitionSets
  | [], conn, s => [(conn, s)]
  | e :: rest, conn, s =>
      if e.1 == conn then (conn, s) :: rest else e :: setTransitions rest conn s

/-- `activeRoundTransitions.has(roomId)` evaluated in `conn`'s closure. -/
def transitionsHas (ms : TransitionSets) (conn roomId : String) : Bool :=
  (transitionsOf ms conn).contains roomId

/-- `activeRoundTransitions.add(roomId)` in `conn`'s closure (a `Set`: adding
a present element changes nothing). -/
def transitionsAdd (ms : TransitionSets) (conn roomId : String) : TransitionSets :=
  if transitionsHas ms conn roomId then ms
  else setTransitions ms conn (transitionsOf ms conn ++ [roomId])

/-- `activeRoundTransitions.delete(roomId)` in `conn`'s closure. -/
def transitionsDelete (ms : TransitionSets) (conn roomId : String) : TransitionSets :=
  setTransitions ms conn ((transitionsOf ms conn).filter (fun r => r != roomId))

structure SchedState where
  store : RoomStore
  transitions : TransitionSets
  pendingBy : List String
  timers : TimerSys
deriving DecidableEq

/-- The synchronous part of `startNextRoundAuto(roomId)` as called from
connection `conn`'s closure: a call while THIS connection's set marks the
room in-flight returns at once; otherwise the room is added to this
connection's set and a timeout owned by this connection is scheduled, both
before any asynchronous work.  Other connections' sets are never consulted. -/
def startNextRoundAuto (conn roomId : String) (st : SchedState) : SchedState :=
  if transitionsHas st.transitions conn roomId then st
  else { st with transitions := transitionsAdd st.transitions conn roomId,
                 pendingBy := st.pendingBy ++ [conn] }

/-- The delayed `setTimeout` body of `startNextRoundAuto`, running in
connection `conn`'s closure.  `word` embeds the random word choice, `now`
the clock, and `drawOk` whether `generateSVGDrawing` succeeds (its
artifacts being `svg`/`png`).  When `nextTurn` returns null the body
returns before the try block, so this connection's marker survives;
otherwise the `finally` clause deletes the room from this connection's set
on every path. -/
def runTransitionTask (conn roomId word svg png : String) (now : Nat) (drawOk : Bool)
    (st : SchedState) : SchedState :=
  let st0 : SchedState := { st with pendingBy := st.pendingBy.erase conn }
  match nextTurn st0.store roomId with
  | none => st0
  | some next =>
      let afterTry : SchedState :=
        match startNewRound st0.store roomId next.1 word (next.2.getD "mock") now with
        | .error _ => st0
        | .ok (_, store1) =>
            if jsStartsWith next.1 "ai-" then
              if drawOk then
                match setDrawing store1 roomId svg png with
                | .error _ => { st0 with store := store1 }
                | .ok store2 =>
                    { st0 with store := store2,
                               timers := startRoundTimer st0.timers roomId }
              else
                { st0 with store := store1 }
            else
              { st0 with store := store1,
                         timers := startRoundTimer st0.timers roomId }
      { afterTry with transitions := transitionsDelete afterTry.transitions conn roomId }

/-- The `playerGuess` socket handler: silently returns when the room or its
current round is absent; records the guess; then ends the round and triggers
the next transition when every human (non-AI) player has guessed correctly.
The handler runs in the guessing socket's connection closure and uses
`socket.id` as the player id, so the triggered transition is guarded by that
same connection's set, keyed here by `playerId`. -/
def playerGuessHandler (roomId playerId guess : String) (st : SchedState) : SchedState :=
  match getRoom st.store roomId with
  | none => st
  | some room =>
      match room.currentRound with
      | none => st
      | some _ =>
          match recordGuess st.store roomId playerId guess with
          | .error _ => st
          | .ok (_, store1) =>
              match getRoom store1 roomId with
              | none => { st with store := store1 }
              | some room1 =>
                  let numPlayers := (room1.players.filter (fun p => !p.isAI)).length
                  let correctGuessesCount :=
                    (((room1.currentRound.map Round.guesses).getD []).filter
                      (fun g => g.correct)).length
                  if correctGuessesCount > 0 ∧ correctGuessesCount ≥ numPlayers then
                    let ended := endCurrentRound store1 roomId
                    startNextRoundAuto playerId roomId { st with store := ended.2 }
                  else
                    { st with store := store1 }

/-- The `onAIGuess` callback passed to `startRoundTimer`: records the guess
and computes the same counts as the player path, but performs no round-end
check (the source only broadcasts the guess and leaves the timer running). -/
def onAIGuessHandler (roomId playerId guess : String) (st : SchedState) : SchedState :=
  match getRoom st.store roomId with
  | none => st
  | some _ =>
      match recordGuess st.store roomId playerId guess with
      | .error _ => st
      | .ok (_, store1) => { st with store := store1 }

/-- One completed round: a `startNewRound` followed by `endCurrentRound`
(a failing start leaves the store unchanged). -/
def playRound (roomId drawerId word modelId : String) (now : Nat) (s : RoomStore) :
    RoomStore :=
  match startNewRound s roomId drawerId word modelId now with
  | .error _ => s
  | .ok (_, s1) => (endCurrentRound s1 roomId).2

/-- `n` completed rounds in sequence. -/
def playRounds (roomId drawerId word modelId : String) (now : Nat) (n : Nat)
    (s : RoomStore) : RoomStore :=
  match n with
  | 0 => s
  | n + 1 => playRounds roomId drawerId word modelId now n
      (playRound roomId drawerId word modelId now s)

/-! ### Basic lemmas about the store and the player map -/

theorem getRoomEntry_setRoomEntry_same (s : RoomStore) (roomId : String) (r : Room) :
    getRoomEntry (setRoomEntry s roomId r) roomId = some r := by
  induction s with
  | nil => simp [getRoomEntry, setRoomEntry]
  | cons e rest ih =>
      cases hb : (e.1 == roomId) with
      | true => simp [setRoomEntry, getRoomEntry, hb]
      | false => simp [setRoomEntry, getRoomEntry, hb, ih]

theorem getRoom_setRoomEntry_same (s : RoomStore) (roomId : String) (r : Room) :
    getRoom (setRoomEntry s roomId r) roomId = some r :=
  getRoomEntry_setRoomEntry_same s roomId r

theorem playersGet_addScore_same (ps : List Player) (pid : String) (d : Nat) :
    playersGet (addScore ps pid d) pid =
      (playersGet ps pid).map (fun p => { p with score := p.score + d }) := by
  induction ps with
  | nil => simp [playersGet, addScore]
  | cons p rest ih =>
      cases hb : (p.id == pid) with
      | true =>
          simp [playersGet, addScore, List.find?, hb]
      | false =>
          simp only [addScore, List.map_cons] at *
          simp [playersGet, List.find?, hb] at *
          exact ih

theorem playersGet_addScore_ne (ps : List Player) (did pid : String) (d : Nat)
    (h : (pid == did) = false) :
    playersGet (addScore ps did d) pid = playersGet ps pid := by
  induction ps with
  | nil => simp [playersGet, addScore]
  | cons p rest ih =>
      cases hb : (p.id == did) with
      | true =>
          have hpid : (p.id == pid) = false := by
            have h1 : p.id = did := by
              simpa using hb
            subst h1
            cases hc : (p.id == pid) with
            | false => rfl
            | true =>
                have h2 : p.id = pid := by simpa using hc
                rw [h2] at h
                simp at h
          simp [playersGet, addScore, List.find?, hb, hpid] at *
          exact ih
      | false =>
          cases hc : (p.id == pid) with
          | true => simp [playersGet, addScore, List.find?, hb, hc]
          | false =>
              simp [playersGet, addScore, List.find?, hb, hc] at *
              exact ih

/-- `addScore` never changes ids or AI flags, so it preserves the number of
human (non-AI) players. -/
theorem filter_human_addScore (ps : List Player) (pid : String) (d : Nat) :
    ((addScore ps pid d).filter (fun p => !p.isAI)).length =
      (ps.filter (fun p => !p.isAI)).length := by
  induction ps with
  | nil => rfl
  | cons p rest ih =>
      cases hb : (p.id == pid) with
      | true =>
          cases hai : p.isAI with
          | true => simpa [addScore, List.filter, hb, hai] using ih
          | false => simpa [addScore, List.filter, hb, hai] using ih
      | false =>
          cases hai : p.isAI with
          | true => simpa [addScore, List.filter, hb, hai] using ih
          | false => simpa [addScore, List.filter, hb, hai] using ih

/-! ### Characterization lemmas for the core operations -/

/-- `computeScores` on a room with a current round, spelled out. -/
theorem computeScores_spec (room : Room) (cr : Round) (pid : String)
    (hcr : room.currentRound = some cr) :
    computeScores room pid =
      { room with players :=
          ((fun players1 =>
            if ((cr.guesses.filter (fun g => g.correct)).length == 1 && cr.drawerId != "ai")
            then (if playersHas players1 cr.drawerId then addScore players1 cr.drawerId 10
                  else players1)
            else players1)
           (if playersHas room.players pid then addScore room.players pid 10
            else room.players)) } := by
  simp [computeScores, hcr]

/-- `recordGuess` on a fresh (not previously recorded) guesser, spelled out. -/
theorem recordGuess_new (s : RoomStore) (roomId : String) (room : Room) (cr : Round)
    (pid guess : String) (h : getRoom s roomId = some room)
    (hcr : room.currentRound = some cr)
    (hnew : cr.guesses.any (fun g => g.playerId == pid) = false) :
    recordGuess s roomId pid guess =
      .ok (({ cr with guesses := cr.guesses ++
                [{ playerId := pid, guess := guess, correct := jsTrim (jsToLower guess) == cr.word }] },
            (jsTrim (jsToLower guess) == cr.word)),
           setRoomEntry s roomId
             (if (jsTrim (jsToLower guess) == cr.word) then
                (computeScores
                  { room with currentRound :=
                      (some { cr with guesses := cr.guesses ++
                          [{ playerId := pid, guess := guess,
                             correct := jsTrim (jsToLower guess) == cr.word }] }) } pid)
              else
                { room with currentRound :=
                    (some { cr with guesses := cr.guesses ++
                        [{ playerId := pid, guess := guess,
                           correct := jsTrim (jsToLower guess) == cr.word }] }) })) := by
  cases hw : (jsTrim (jsToLower guess) == cr.word) with
  | true => simp [recordGuess, h, hcr, hnew, hw]
  | false => simp [recordGuess, h, hcr, hnew, hw]

/-! ### Concrete states for witnesses -/

/-- The store component of a successful operation (the empty store stands in
on the error branch); used to chain concrete witness states. -/
def storeOf {α : Type} (e : Except GameError (α × RoomStore)) : RoomStore :=
  match e with
  | .ok (_, s) => s
  | .error _ => []

/-- A freshly created room with the five agents plus two human players. -/
def demoRoom : Room :=
  { id := "r1",
    players := initialAgents ++
      [{ id := "p1", name := "Alice", score := 0, isAI := false, modelId := none },
       { id := "p2", name := "Bob", score := 0, isAI := false, modelId := none }],
    currentRound := none, history := [], status := .waiting }

/-- A store holding only `demoRoom`. -/
def demoStore : RoomStore := [("r1", demoRoom)]

/-- A current round on `demoRoom`: word "cat", drawn by the agent ai-gemini. -/
def demoRound : Round :=
  { roundNumber := 1, word := "cat", drawerId := "ai-gemini",
    modelId := "google/gemini-1.5-pro", startTime := 0, guesses := [],
    state := .guessing, svg := none, pngBase64 := none }

/-- `demoRoom` while `demoRound` is in progress. -/
def roundRoom : Room := { demoRoom with status := .inGame, currentRound := some demoRound }

/-- A store holding only `roundRoom`. -/
def roundStore : RoomStore := [("r1", roundRoom)]

/-- `demoRound` after player p1 already recorded a correct guess. -/
def dupRound : Round :=
  { demoRound with guesses := [{ playerId := "p1", guess := "cat", correct := true }] }

/-- `roundRoom` with `dupRound` as the current round. -/
def dupRoom : Room := { roundRoom with currentRound := some dupRound }

/-- A store holding only `dupRoom`. -/
def dupStore : RoomStore := [("r1", dupRoom)]

/-! ### C5: duplicate guesses are silently absorbed -/

/-- C5: for every room with a current round, a `recordGuess` call from a
player who already has a guess record that round returns `correct = false`
whatever the text, and returns the untouched store, so the round's guess
records, their count, and all player scores are unchanged. -/
theorem duplicate_guess_noop (s : RoomStore) (roomId : String) (room : Room) (cr : Round)
    (pid g : String) (h : getRoom s roomId = some room)
    (hcr : room.currentRound = some cr)
    (hdup : cr.guesses.any (fun gr => gr.playerId == pid) = true) :
    recordGuess s roomId pid g = .ok ((cr, false), s) := by
  simp [recordGuess, h, hcr, hdup]

/-- Witness for C5: concrete second guess by p1, with an arbitrary text,
is reported incorrect and leaves the store untouched. -/
theorem duplicate_guess_noop_witness :
    recordGuess dupStore "r1" "p1" "cat" = .ok ((dupRound, false), dupStore) :=
  duplicate_guess_noop dupStore "r1" dupRoom dupRound "p1" "cat" (by decide) rfl (by decide)

/-! ### C7: resetGame -/

/-- C7: `resetGame` fails with the room-not-found error when the room is
absent; otherwise it empties the history, clears the current round, sets the
status back to waiting, zeroes every player's score (agents included) and
preserves the roster (ids, names, agent flags and model ids) unchanged. -/
theorem reset_game_spec (s : RoomStore) (roomId : String) :
    (getRoom s roomId = none → resetGame s roomId = .error (.roomNotFound roomId)) ∧
    (∀ room, getRoom s roomId = some room →
      ∃ room', resetGame s roomId = .ok (room', setRoomEntry s roomId room') ∧
        getRoom (setRoomEntry s roomId room') roomId = some room' ∧
        room'.history = [] ∧ room'.currentRound = none ∧ room'.status = .waiting ∧
        (∀ p ∈ room'.players, p.score = 0) ∧
        room'.players.map (fun p => (p.id, p.name, p.isAI, p.modelId)) =
          room.players.map (fun p => (p.id, p.name, p.isAI, p.modelId))) := by
  constructor
  · intro h
    simp [resetGame, h]
  · intro room h
    have hr : resetGame s roomId = .ok
        ({ room with currentRound := none, history := [], status := .waiting,
                     players := room.players.map (fun p => { p with score := 0 }) },
         setRoomEntry s roomId
           { room with currentRound := none, history := [], status := .waiting,
                       players := room.players.map (fun p => { p with score := 0 }) }) := by
      simp [resetGame, h]
    refine ⟨_, hr, getRoom_setRoomEntry_same _ _ _, rfl, rfl, rfl, ?_, ?_⟩
    · intro p hp
      simp only [List.mem_map] at hp
      obtain ⟨q, _, hq⟩ := hp
      rw [← hq]
    · simp [List.map_map]

/-- Witness for C7: resetting the demo room yields the promised shape. -/
theorem reset_game_spec_witness :
    ∃ room', resetGame demoStore "r1" = .ok (room', setRoomEntry demoStore "r1" room') ∧
      getRoom (setRoomEntry demoStore "r1" room') "r1" = some room' ∧
      room'.history = [] ∧ room'.currentRound = none ∧ room'.status = .waiting ∧
      (∀ p ∈ room'.players, p.score = 0) ∧
      room'.players.map (fun p => (p.id, p.name, p.isAI, p.modelId)) =
        demoRoom.players.map (fun p => (p.id, p.name, p.isAI, p.modelId)) :=
  (reset_game_spec demoStore "r1").2 demoRoom (by decide)

/-! ### C10: which operations surface NotFound -/

/-- C10 counterexample: core operations referencing an absent room that
quietly return a null or empty result instead of surfacing an error:
`endCurrentRound` yields a null round, `nextTurn` yields null,
`getScoreboard` and `removePlayerFromRoom` yield empty lists. -/
theorem notfound_silent_cex :
    endCurrentRound ([] : RoomStore) "r1" = (none, []) ∧
    nextTurn ([] : RoomStore) "r1" = none ∧
    getScoreboard ([] : RoomStore) "r1" = [] ∧
    removePlayerFromRoom ([] : RoomStore) "r1" "p1" = ([], []) :=
  ⟨rfl, rfl, rfl, rfl⟩

/-- C10 amended: on an absent room, `resetGame`, `addPlayerToRoom`,
`startNewRound`, `setDrawing` and `recordGuess` surface an error, while
`endCurrentRound`, `nextTurn`, `getScoreboard` and `removePlayerFromRoom`
silently return null/empty results; when the room exists but has no current
round, `recordGuess` and `setDrawing` surface an error while
`endCurrentRound` returns null and the `playerGuess` socket handler
silently returns; the handler also silently returns when the room itself is
absent. -/
theorem notfound_surfacing_amended :
    (∀ (s : RoomStore) (roomId pid pname d w m svg png g : String) (now : Nat),
       getRoom s roomId = none →
       resetGame s roomId = .error (.roomNotFound roomId) ∧
       addPlayerToRoom s roomId pid pname = .error (.roomNotFound roomId) ∧
       startNewRound s roomId d w m now = .error (.roomNotFound roomId) ∧
       setDrawing s roomId svg png = .error .roomOrRoundNotFound ∧
       recordGuess s roomId pid g = .error .roomOrRoundNotFound ∧
       endCurrentRound s roomId = (none, s) ∧
       nextTurn s roomId = none ∧
       getScoreboard s roomId = [] ∧
       removePlayerFromRoom s roomId pid = ([], s)) ∧
    (∀ (s : RoomStore) (roomId : String) (room : Room) (pid g svg png : String),
       getRoom s roomId = some room → room.currentRound = none →
       recordGuess s roomId pid g = .error .roomOrRoundNotFound ∧
       setDrawing s roomId svg png = .error .roomOrRoundNotFound ∧
       endCurrentRound s roomId = (none, s) ∧
       (∀ st : SchedState, st.store = s → playerGuessHandler roomId pid g st = st)) ∧
    (∀ (st : SchedState) (roomId pid g : String),
       getRoom st.store roomId = none →
       playerGuessHandler roomId pid g st = st) := by
  refine ⟨?_, ?_, ?_⟩
  · intro s roomId pid pname d w m svg png g now h
    exact ⟨by simp [resetGame, h], by simp [addPlayerToRoom, h],
           by simp [startNewRound, h], by simp [setDrawing, h],
           by simp [recordGuess, h], by simp [endCurrentRound, h],
           by simp [nextTurn, h], by simp [getScoreboard, h],
           by simp [removePlayerFromRoom, h]⟩
  · intro s roomId room pid g svg png h hcr
    refine ⟨by simp [recordGuess, h, hcr], by simp [setDrawing, h, hcr],
            by simp [endCurrentRound, h, hcr], ?_⟩
    intro st hs
    simp [playerGuessHandler, hs, h, hcr]
  · intro st roomId pid g h
    simp [playerGuessHandler, h]

/-- Witness for C10 amended: the empty store and a bare room instantiate
both hypothesis groups. -/
theorem notfound_surfacing_amended_witness :
    (resetGame ([] : RoomStore) "r1" = .error (.roomNotFound "r1") ∧
     nextTurn ([] : RoomStore) "r1" = none) ∧
    recordGuess demoStore "r1" "p1" "cat" = .error .roomOrRoundNotFound ∧
    playerGuessHandler "r1" "p1" "cat"
        { store := demoStore, transitions := [], pendingBy := [],
          timers := TimerSys.initial } =
      { store := demoStore, transitions := [], pendingBy := [],
        timers := TimerSys.initial } := by
  have h1 := notfound_surfacing_amended.1 [] "r1" "p1" "Alice" "d" "w" "m" "s" "p" "cat" 0 rfl
  have h2 := notfound_surfacing_amended.2.1 demoStore "r1" demoRoom "p1" "cat" "s" "p"
    (by decide) rfl
  exact ⟨⟨h1.1, h1.2.2.2.2.2.2.1⟩, h2.1,
         h2.2.2.2 { store := demoStore, transitions := [], pendingBy := [],
                    timers := TimerSys.initial } rfl⟩

/-! ### C6: guess normalization -/

/-- C6 counterexample: a round started with the word " cat" stores the
target as " cat" (lowercased but not trimmed), and the guess "cat" — which
differs from the stored target only in surrounding whitespace — is reported
incorrect, refuting the claim that guess and target are normalized
identically (lowercased and trimmed). -/
theorem guess_normalization_cex :
    ((getRoom (storeOf (startNewRound demoStore "r1" "ai-gemini" " cat" "m" 0)) "r1").bind
        Room.currentRound).map Round.word = some " cat" ∧
    (recordGuess (storeOf (startNewRound demoStore "r1" "ai-gemini" " cat" "m" 0))
        "r1" "p1" "cat").toOption.map (fun r => r.1.2) = some false := by
  constructor
  · decide
  · decide

/-- C6 amended: `recordGuess` lowercases and trims the submitted guess, and
reports `correct = true` exactly when that normalized guess is equal, as an
exact string, to the stored target word; the stored target itself is the
round's input word lowercased at `startNewRound` (it is not trimmed).  In
particular, for a target whose lowercased form carries no surrounding
whitespace, a guess differing from it only in letter case or surrounding
whitespace is reported correct. -/
theorem guess_normalization_amended :
    (∀ (s : RoomStore) (roomId : String) (room : Room) (cr : Round) (pid guess : String),
       getRoom s roomId = some room →
       room.currentRound = some cr →
       cr.guesses.any (fun g => g.playerId == pid) = false →
       ∃ round' s', recordGuess s roomId pid guess =
           .ok ((round', jsTrim (jsToLower guess) == cr.word), s')) ∧
    (∀ (s : RoomStore) (roomId d w m : String) (now : Nat) (r : Round) (s' : RoomStore),
       startNewRound s roomId d w m now = .ok (r, s') → r.word = jsToLower w) := by
  constructor
  · intro s roomId room cr pid guess h hcr hnew
    exact ⟨_, _, recordGuess_new s roomId room cr pid guess h hcr hnew⟩
  · intro s roomId d w m now r s' h
    cases hg : getRoom s roomId with
    | none => simp [startNewRound, hg] at h
    | some room =>
        simp [startNewRound, hg] at h
        rw [← h.1]

/-- Witness for C6 amended: a cased, padded guess at the word "cat" is
reported correct, and the stored word of a round started from "CAT" is
"cat". -/
theorem guess_normalization_amended_witness :
    (∃ round' s', recordGuess roundStore "r1" "p1" " CAT " =
        .ok ((round', jsTrim (jsToLower " CAT ") == demoRound.word), s')) ∧
    (∀ r s', startNewRound demoStore "r1" "ai-gemini" "CAT" "m" 0 = .ok (r, s') →
       r.word = jsToLower "CAT") :=
  ⟨guess_normalization_amended.1 roundStore "r1" roundRoom demoRound "p1" " CAT "
     (by decide) rfl (by decide),
   fun r s' h => guess_normalization_amended.2 demoStore "r1" "ai-gemini" "CAT" "m" 0 r s' h⟩

/-! ### C2: round numbering and history growth -/

/-- One completed round moves the freshly numbered round, marked ended,
to the end of history and leaves the room waiting with no current round. -/
theorem playRound_spec (s : RoomStore) (roomId d w m : String) (now : Nat) (room : Room)
    (h : getRoom s roomId = some room) :
    getRoom (playRound roomId d w m now s) roomId = some
      { room with
          history := room.history ++
            [{ roundNumber := room.history.length + 1, word := jsToLower w, drawerId := d,
               modelId := m, startTime := now, guesses := [], state := .ended,
               svg := none, pngBase64 := none }],
          currentRound := none, status := .waiting } := by
  have h' : getRoomEntry s roomId = some room := h
  simp [playRound, startNewRound, endCurrentRound, getRoom, h',
        getRoomEntry_setRoomEntry_same]

/-- After `n` completed rounds the history has grown by `n` and the new
round numbers continue the sequence `history.length + 1, ...`. -/
theorem playRounds_spec (roomId d w m : String) (now : Nat) :
    ∀ (n : Nat) (s : RoomStore) (room : Room), getRoom s roomId = some room →
      ∃ room_n, getRoom (playRounds roomId d w m now n s) roomId = some room_n ∧
        room_n.history.length = room.history.length + n ∧
        room_n.history.map Round.roundNumber =
          room.history.map Round.roundNumber ++
            List.range' (room.history.length + 1) n := by
  intro n
  induction n with
  | zero =>
      intro s room h
      exact ⟨room, h, rfl, by simp⟩
  | succ k ih =>
      intro s room h
      have h1 := playRound_spec s roomId d w m now room h
      obtain ⟨room_n, hg, hlen, hmap⟩ := ih _ _ h1
      refine ⟨room_n, hg, ?_, ?_⟩
      · simp only [List.length_append, List.length_cons, List.length_nil] at hlen
        omega
      · rw [hmap]
        simp only [List.map_append, List.map_cons, List.map_nil, List.length_append,
                   List.length_cons, List.length_nil, List.append_assoc]
        rw [List.range'_succ]
        simp

/-- C2: ending the current round marks it ended, appends it to history,
clears the current round and sets the room waiting; every new round is
numbered `history.length + 1`; consequently, starting from an empty history,
after `n` completed rounds the history length is `n` and the stored round
numbers are exactly `1, ..., n` with no gaps or duplicates. -/
theorem round_numbering (s : RoomStore) (roomId : String) (room : Room)
    (h : getRoom s roomId = some room) :
    (∀ cr, room.currentRound = some cr →
       endCurrentRound s roomId =
         (some { cr with state := .ended },
          setRoomEntry s roomId
            { room with history := room.history ++ [{ cr with state := .ended }],
                        currentRound := none, status := .waiting })) ∧
    (∀ d w m now r s', startNewRound s roomId d w m now = .ok (r, s') →
       r.roundNumber = room.history.length + 1) ∧
    (room.history = [] → ∀ d w m now n, ∃ room_n,
       getRoom (playRounds roomId d w m now n s) roomId = some room_n ∧
       room_n.history.length = n ∧
       room_n.history.map Round.roundNumber = List.range' 1 n) := by
  refine ⟨?_, ?_, ?_⟩
  · intro cr hcr
    simp [endCurrentRound, h, hcr]
  · intro d w m now r s' hs
    simp [startNewRound, h] at hs
    rw [← hs.1]
  · intro hh d w m now n
    obtain ⟨room_n, hg, hlen, hmap⟩ := playRounds_spec roomId d w m now n s room h
    rw [hh] at hlen hmap
    exact ⟨room_n, hg, by simpa using hlen, by simpa using hmap⟩

/-- Witness for C2: three completed rounds on the demo room yield history
length 3 with round numbers `[1, 2, 3]`, and ending the in-progress demo
round appends it to history. -/
theorem round_numbering_witness :
    (∃ room_n, getRoom (playRounds "r1" "ai-gemini" "cat" "m" 0 3 demoStore) "r1" =
        some room_n ∧
      room_n.history.length = 3 ∧
      room_n.history.map Round.roundNumber = List.range' 1 3) ∧
    endCurrentRound roundStore "r1" =
      (some { demoRound with state := .ended },
       setRoomEntry roundStore "r1"
         { roundRoom with history := [{ demoRound with state := .ended }],
                          currentRound := none, status := .waiting }) :=
  ⟨(round_numbering demoStore "r1" demoRoom (by decide)).2.2 rfl "ai-gemini" "cat" "m" 0 3,
   (round_numbering roundStore "r1" roundRoom (by decide)).1 demoRound rfl⟩

/-! ### C3: drawer scoring and the automated-drawer guard -/

/-- C3: the drawer-award guard compares the drawer id against the literal
string "ai", but the automated agents' ids are "ai-gemini", "ai-chatgpt",
etc., so an automated drawer IS awarded the 10-point drawer bonus on the
first correct guess of the round: in the demo room (drawer ai-gemini, an
agent with score 0), recording p1's correct guess raises ai-gemini's score
to 10 — contradicting both the source's own "Drawer Score (if not AI)"
comment and the claim that automated drawers never receive points. -/
theorem ai_drawer_awarded_bug :
    (playersGet demoRoom.players "ai-gemini").map Player.isAI = some true ∧
    (playersGet demoRoom.players "ai-gemini").map Player.score = some 0 ∧
    demoRound.drawerId = "ai-gemini" ∧
    ("ai-gemini" == "ai") = false ∧
    ((getRoom (storeOf (recordGuess roundStore "r1" "p1" "cat")) "r1").map
      (fun room => (playersGet room.players "ai-gemini").map Player.score)) =
        some (some 10) := by
  refine ⟨by decide, by decide, rfl, by decide, by decide⟩

/-! ### C4: the guesser's flat award -/

/-- C4: recording a correct guess for a registered guesser (who, as on every
call path of the source, is not the drawer and has no earlier guess record)
raises that guesser's score by exactly 10 — a flat award: the scoring rule
takes no time input at all, so no time-decay bonus exists. -/
theorem guesser_flat_award (s : RoomStore) (roomId : String) (room : Room) (cr : Round)
    (pid guess : String) (p : Player)
    (h : getRoom s roomId = some room)
    (hcr : room.currentRound = some cr)
    (hp : playersGet room.players pid = some p)
    (hnew : cr.guesses.any (fun g => g.playerId == pid) = false)
    (hw : (jsTrim (jsToLower guess) == cr.word) = true)
    (hnd : (pid == cr.drawerId) = false) :
    ∃ round' s', recordGuess s roomId pid guess = .ok ((round', true), s') ∧
      ∃ room', getRoom s' roomId = some room' ∧
        playersGet room'.players pid = some { p with score := p.score + 10 } := by
  have hrec := recordGuess_new s roomId room cr pid guess h hcr hnew
  simp only [hw, if_pos] at hrec
  refine ⟨_, _, hrec, _, getRoom_setRoomEntry_same _ _ _, ?_⟩
  rw [computeScores_spec _
    ({ cr with guesses := cr.guesses ++ [{ playerId := pid, guess := guess, correct := true }] })
    pid rfl]
  have hhas : playersHas room.players pid = true := by
    simp [playersHas, hp]
  have hget : playersGet (addScore room.players pid 10) pid =
      some { p with score := p.score + 10 } := by
    rw [playersGet_addScore_same, hp]
    rfl
  have hnd' : playersGet (addScore (addScore room.players pid 10) cr.drawerId 10) pid =
      playersGet (addScore room.players pid 10) pid :=
    playersGet_addScore_ne _ _ _ _ hnd
  simp only [hhas, if_pos]
  split
  · split
    · rw [hnd', hget]
    · rw [hget]
  · rw [hget]

/-- Witness for C4: the cased, padded correct guess by p1 (score 0) on the
demo round yields score exactly 10. -/
theorem guesser_flat_award_witness :
    ∃ round' s', recordGuess roundStore "r1" "p1" " CAT " = .ok ((round', true), s') ∧
      ∃ room', getRoom s' "r1" = some room' ∧
        playersGet room'.players "p1" =
          some { id := "p1", name := "Alice", score := 0 + 10, isAI := false, modelId := none } :=
  guesser_flat_award roundStore "r1" roundRoom demoRound "p1" " CAT "
    { id := "p1", name := "Alice", score := 0, isAI := false, modelId := none }
    (by decide) rfl (by decide) (by decide) (by decide) (by decide)

/-! ### C1: the duplicate-transition guard -/

/-- Ending a round whose room and current round exist grows the history by
exactly one. -/
theorem endCurrentRound_len (s : RoomStore) (roomId : String) (room : Room) (cr : Round)
    (h : getRoom s roomId = some room) (hcr : room.currentRound = some cr) :
    ∃ room', getRoom ((endCurrentRound s roomId).2) roomId = some room' ∧
      room'.history.length = room.history.length + 1 ∧
      room'.currentRound = none := by
  have he : endCurrentRound s roomId =
      (some { cr with state := .ended },
       setRoomEntry s roomId
         { room with history := room.history ++ [{ cr with state := .ended }],
                     currentRound := none, status := .waiting }) := by
    simp [endCurrentRound, h, hcr]
  rw [he]
  exact ⟨_, getRoom_setRoomEntry_same _ _ _, by simp, rfl⟩

/-- Symmetry of a failed string comparison. -/
theorem beq_false_symm {a b : String} (h : (a == b) = false) : (b == a) = false := by
  cases hc : (b == a) with
  | false => rfl
  | true =>
      have hba : b = a := by simpa using hc
      rw [hba] at h
      simp at h

theorem find?_setTransitions_same (ms : TransitionSets) (conn : String) (s : List String) :
    (setTransitions ms conn s).find? (fun e => e.1 == conn) = some (conn, s) := by
  induction ms with
  | nil => simp [setTransitions, List.find?]
  | cons e rest ih =>
      cases hb : (e.1 == conn) with
      | true => simp [setTransitions, List.find?, hb]
      | false => simp [setTransitions, List.find?, hb, ih]

theorem find?_setTransitions_other (ms : TransitionSets) (conn conn' : String)
    (s : List String) (h : (conn' == conn) = false) :
    (setTransitions ms conn s).find? (fun e => e.1 == conn') =
      ms.find? (fun e => e.1 == conn') := by
  have hsymm : (conn == conn') = false := beq_false_symm h
  induction ms with
  | nil => simp [setTransitions, List.find?, hsymm]
  | cons e rest ih =>
      cases hb : (e.1 == conn) with
      | true =>
          have he : e.1 = conn := by simpa using hb
          simp [setTransitions, List.find?, hb, hsymm, he]
      | false =>
          cases hc : (e.1 == conn') with
          | true => simp [setTransitions, List.find?, hb, hc]
          | false => simp [setTransitions, List.find?, hb, hc, ih]

theorem contains_append_self (l : List String) (roomId : String) :
    ((l ++ [roomId]).contains roomId) = true := by
  induction l with
  | nil => simp
  | cons a rest ih => simp [ih]

theorem contains_filter_ne_self (l : List String) (roomId : String) :
    ((l.filter (fun r => r != roomId)).contains roomId) = false := by
  induction l with
  | nil => rfl
  | cons a rest ih =>
      cases hb : (a == roomId) with
      | true =>
          rw [List.filter_cons_of_neg (by simpa using hb)]
          exact ih
      | false =>
          have hb' : (roomId == a) = false := beq_false_symm hb
          have hra : ¬roomId = a := by simpa using hb'
          rw [List.filter_cons_of_pos (by simpa using hb)]
          simp [ih, hra]

theorem transitionsOf_setTransitions_same (ms : TransitionSets) (conn : String)
    (s : List String) :
    transitionsOf (setTransitions ms conn s) conn = s := by
  simp [transitionsOf, find?_setTransitions_same]

theorem transitionsOf_setTransitions_other (ms : TransitionSets) (conn conn' : String)
    (s : List String) (h : (conn' == conn) = false) :
    transitionsOf (setTransitions ms conn s) conn' = transitionsOf ms conn' := by
  simp [transitionsOf, find?_setTransitions_other ms conn conn' s h]

/-- Adding a room to a connection's set marks it for that connection. -/
theorem transitionsHas_add_same (ms : TransitionSets) (conn roomId : String) :
    transitionsHas (transitionsAdd ms conn roomId) conn roomId = true := by
  cases h : transitionsHas ms conn roomId with
  | true =>
      simp only [transitionsAdd]
      rw [if_pos h]
      exact h
  | false =>
      simp only [transitionsAdd]
      rw [if_neg (by simp [h])]
      show (transitionsOf (setTransitions ms conn
        (transitionsOf ms conn ++ [roomId])) conn).contains roomId = true
      rw [transitionsOf_setTransitions_same]
      exact contains_append_self _ _

/-- Adding a room to one connection's set never marks another connection. -/
theorem transitionsHas_add_other (ms : TransitionSets) (conn conn' roomId : String)
    (h : (conn' == conn) = false) :
    transitionsHas (transitionsAdd ms conn roomId) conn' roomId =
      transitionsHas ms conn' roomId := by
  cases hc : transitionsHas ms conn roomId with
  | true =>
      simp only [transitionsAdd]
      rw [if_pos hc]
  | false =>
      simp only [transitionsAdd]
      rw [if_neg (by simp [hc])]
      show (transitionsOf (setTransitions ms conn
        (transitionsOf ms conn ++ [roomId])) conn').contains roomId = _
      rw [transitionsOf_setTransitions_other ms conn conn' _ h]
      rfl

/-- Deleting a room from a connection's set unmarks it for that connection. -/
theorem transitionsHas_delete_same (ms : TransitionSets) (conn roomId : String) :
    transitionsHas (transitionsDelete ms conn roomId) conn roomId = false := by
  simp only [transitionsDelete]
  show (transitionsOf (setTransitions ms conn
    ((transitionsOf ms conn).filter (fun r => r != roomId))) conn).contains roomId = false
  rw [transitionsOf_setTransitions_same]
  exact contains_filter_ne_self _ _

/-- When the cool-down body finds the room (so `nextTurn` returns a drawer),
it installs exactly one fresh current round on the room's unchanged history,
deletes the room from the owning connection's in-flight set on every branch
(drawing success or failure), and consumes that connection's timeout. -/
theorem runTransitionTask_store (st : SchedState) (conn roomId word svg png : String)
    (now : Nat) (drawOk : Bool) (room : Room) (next : String × Option String)
    (hg : getRoom st.store roomId = some room)
    (hnt : nextTurn st.store roomId = some next) :
    ∃ room' cr,
      getRoom (runTransitionTask conn roomId word svg png now drawOk st).store roomId =
        some room' ∧
      room'.currentRound = some cr ∧
      room'.history = room.history ∧
      transitionsHas (runTransitionTask conn roomId word svg png now drawOk st).transitions
        conn roomId = false ∧
      (runTransitionTask conn roomId word svg png now drawOk st).pendingBy =
        st.pendingBy.erase conn := by
  have h1 : startNewRound st.store roomId next.1 word (next.2.getD "mock") now =
      .ok ({ roundNumber := room.history.length + 1, word := jsToLower word,
             drawerId := next.1, modelId := next.2.getD "mock", startTime := now,
             guesses := [], state := .drawing, svg := none, pngBase64 := none },
           setRoomEntry st.store roomId
             { room with status := .inGame,
                         currentRound := some
                           { roundNumber := room.history.length + 1, word := jsToLower word,
                             drawerId := next.1, modelId := next.2.getD "mock",
                             startTime := now, guesses := [], state := .drawing,
                             svg := none, pngBase64 := none } }) := by
    simp [startNewRound, hg]
  cases hsw : jsStartsWith next.1 "ai-" with
  | false =>
      have htask : runTransitionTask conn roomId word svg png now drawOk st =
          { store := setRoomEntry st.store roomId
              { room with status := .inGame,
                          currentRound := some
                            { roundNumber := room.history.length + 1,
                              word := jsToLower word, drawerId := next.1,
                              modelId := next.2.getD "mock", startTime := now,
                              guesses := [], state := .drawing,
                              svg := none, pngBase64 := none } },
            transitions := transitionsDelete st.transitions conn roomId,
            pendingBy := st.pendingBy.erase conn,
            timers := startRoundTimer st.timers roomId } := by
        simp [runTransitionTask, hnt, h1, hsw]
      rw [htask]
      exact ⟨_, _, getRoom_setRoomEntry_same _ _ _, rfl, rfl,
             transitionsHas_delete_same _ _ _, rfl⟩
  | true =>
      cases drawOk with
      | false =>
          have htask : runTransitionTask conn roomId word svg png now false st =
              { store := setRoomEntry st.store roomId
                  { room with status := .inGame,
                              currentRound := some
                                { roundNumber := room.history.length + 1,
                                  word := jsToLower word, drawerId := next.1,
                                  modelId := next.2.getD "mock", startTime := now,
                                  guesses := [], state := .drawing,
                                  svg := none, pngBase64 := none } },
                transitions := transitionsDelete st.transitions conn roomId,
                pendingBy := st.pendingBy.erase conn,
                timers := st.timers } := by
            simp [runTransitionTask, hnt, h1, hsw]
          rw [htask]
          exact ⟨_, _, getRoom_setRoomEntry_same _ _ _, rfl, rfl,
                 transitionsHas_delete_same _ _ _, rfl⟩
      | true =>
          have h2 : setDrawing
              (setRoomEntry st.store roomId
                { room with status := .inGame,
                            currentRound := some
                              { roundNumber := room.history.length + 1,
                                word := jsToLower word, drawerId := next.1,
                                modelId := next.2.getD "mock", startTime := now,
                                guesses := [], state := .drawing,
                                svg := none, pngBase64 := none } }) roomId svg png =
              .ok (setRoomEntry
                (setRoomEntry st.store roomId
                  { room with status := .inGame,
                              currentRound := some
                                { roundNumber := room.history.length + 1,
                                  word := jsToLower word, drawerId := next.1,
                                  modelId := next.2.getD "mock", startTime := now,
                                  guesses := [], state := .drawing,
                                  svg := none, pngBase64 := none } }) roomId
                { room with status := .inGame,
                            currentRound := some
                              { roundNumber := room.history.length + 1,
                                word := jsToLower word, drawerId := next.1,
                                modelId := next.2.getD "mock", startTime := now,
                                guesses := [], state := .guessing,
                                svg := some svg, pngBase64 := some png } }) := by
            simp [setDrawing, getRoom_setRoomEntry_same]
          have htask : runTransitionTask conn roomId word svg png now true st =
              { store := setRoomEntry
                  (setRoomEntry st.store roomId
                    { room with status := .inGame,
                                currentRound := some
                                  { roundNumber := room.history.length + 1,
                                    word := jsToLower word, drawerId := next.1,
                                    modelId := next.2.getD "mock", startTime := now,
                                    guesses := [], state := .drawing,
                                    svg := none, pngBase64 := none } }) roomId
                  { room with status := .inGame,
                              currentRound := some
                                { roundNumber := room.history.length + 1,
                                  word := jsToLower word, drawerId := next.1,
                                  modelId := next.2.getD "mock", startTime := now,
                                  guesses := [], state := .guessing,
                                  svg := some svg, pngBase64 := some png } },
                transitions := transitionsDelete st.transitions conn roomId,
                pendingBy := st.pendingBy.erase conn,
                timers := startRoundTimer st.timers roomId } := by
            simp [runTransitionTask, hnt, h1, hsw, h2]
          rw [htask]
          exact ⟨_, _, getRoom_setRoomEntry_same _ _ _, rfl, rfl,
                 transitionsHas_delete_same _ _ _, rfl⟩

/-- C1 counterexample.  First: the guard is per-connection — while
connection c1 has room r1 in flight, a trigger from connection c2 is NOT
dropped: both timeouts end up scheduled, refuting "a request made while a
transition for that room is already in flight is dropped with no side
effect" and "two rapid triggers produce exactly one new Round".  Second:
even within one connection, triggering for a room id with no room and then
running the cool-down body consumes the timeout yet leaves the marker set —
the `nextTurn = null` early return sits before the try/finally, refuting
"cleared on every exit path". -/
theorem transition_marker_leak_cex :
    transitionsHas (startNextRoundAuto "c1" "r1"
        { store := demoStore, transitions := [], pendingBy := [],
          timers := TimerSys.initial }).transitions "c1" "r1" = true ∧
    (startNextRoundAuto "c2" "r1" (startNextRoundAuto "c1" "r1"
        { store := demoStore, transitions := [], pendingBy := [],
          timers := TimerSys.initial })).pendingBy = ["c1", "c2"] ∧
    transitionsHas (runTransitionTask "c1" "r1" "dog" "s" "p" 0 true
        (startNextRoundAuto "c1" "r1"
          { store := [], transitions := [], pendingBy := [],
            timers := TimerSys.initial })).transitions "c1" "r1" = true ∧
    (runTransitionTask "c1" "r1" "dog" "s" "p" 0 true
        (startNextRoundAuto "c1" "r1"
          { store := [], transitions := [], pendingBy := [],
            timers := TimerSys.initial })).pendingBy = [] := by
  refine ⟨by decide, by decide, by decide, by decide⟩

/-- C1 amended: the in-flight set is per-connection, so the guard only
protects against duplicate triggers from the SAME connection: such a
trigger while this connection's marker is set is dropped with no side
effect, while triggers from different connections bypass each other's guard
and each schedule a transition.  Within one connection the marker is set
synchronously (before any store or timer mutation) together with one
scheduled timeout; when the room still exists at cool-down expiry the body
clears this connection's marker on success and on drawing failure alike
(but when the room is absent the body's early return leaks the marker — see
the counterexample); and two rapid triggers from the same connection for an
existing room schedule exactly one transition which, once run and the round
completed, grows the history by exactly one. -/
theorem transition_guard_amended :
    (∀ (st : SchedState) (conn roomId : String),
       transitionsHas st.transitions conn roomId = true →
       startNextRoundAuto conn roomId st = st) ∧
    (∀ (st : SchedState) (conn roomId : String),
       transitionsHas st.transitions conn roomId = false →
       transitionsHas (startNextRoundAuto conn roomId st).transitions conn roomId = true ∧
       (startNextRoundAuto conn roomId st).store = st.store ∧
       (startNextRoundAuto conn roomId st).timers = st.timers ∧
       (startNextRoundAuto conn roomId st).pendingBy = st.pendingBy ++ [conn]) ∧
    (∀ (st : SchedState) (conn conn' roomId : String),
       (conn' == conn) = false →
       transitionsHas st.transitions conn roomId = false →
       transitionsHas st.transitions conn' roomId = false →
       (startNextRoundAuto conn' roomId (startNextRoundAuto conn roomId st)).pendingBy =
         st.pendingBy ++ [conn] ++ [conn']) ∧
    (∀ (st : SchedState) (conn roomId word svg png : String) (now : Nat) (drawOk : Bool)
       (next : String × Option String),
       nextTurn st.store roomId = some next →
       transitionsHas (runTransitionTask conn roomId word svg png now drawOk st).transitions
         conn roomId = false) ∧
    (∀ (st : SchedState) (conn roomId word svg png : String) (now : Nat) (drawOk : Bool)
       (room : Room) (next : String × Option String),
       transitionsHas st.transitions conn roomId = false →
       getRoom st.store roomId = some room →
       nextTurn st.store roomId = some next →
       startNextRoundAuto conn roomId (startNextRoundAuto conn roomId st) =
         startNextRoundAuto conn roomId st ∧
       (startNextRoundAuto conn roomId st).pendingBy = st.pendingBy ++ [conn] ∧
       ∃ room', getRoom ((endCurrentRound
           (runTransitionTask conn roomId word svg png now drawOk
             (startNextRoundAuto conn roomId st)).store roomId).2) roomId = some room' ∧
         room'.history.length = room.history.length + 1) := by
  refine ⟨?_, ?_, ?_, ?_, ?_⟩
  · intro st conn roomId hm
    simp [startNextRoundAuto, hm]
  · intro st conn roomId hm
    simp [startNextRoundAuto, hm, transitionsHas_add_same]
  · intro st conn conn' roomId hne hm hm'
    have h1 : startNextRoundAuto conn roomId st =
        { st with transitions := transitionsAdd st.transitions conn roomId,
                  pendingBy := st.pendingBy ++ [conn] } := by
      simp [startNextRoundAuto, hm]
    have hm2 : transitionsHas (transitionsAdd st.transitions conn roomId)
        conn' roomId = false :=
      (transitionsHas_add_other st.transitions conn conn' roomId hne).trans hm'
    have h2 : startNextRoundAuto conn' roomId (startNextRoundAuto conn roomId st) =
        { st with transitions := transitionsAdd
                    (transitionsAdd st.transitions conn roomId) conn' roomId,
                  pendingBy := (st.pendingBy ++ [conn]) ++ [conn'] } := by
      rw [h1]
      simp [startNextRoundAuto, hm2]
    rw [h2]
  · intro st conn roomId word svg png now drawOk next hnt
    cases hg : getRoom st.store roomId with
    | none => rw [nextTurn, hg] at hnt; simp at hnt
    | some room =>
        obtain ⟨_, _, _, _, _, hmk, _⟩ :=
          runTransitionTask_store st conn roomId word svg png now drawOk room next hg hnt
        exact hmk
  · intro st conn roomId word svg png now drawOk room next hm hg hnt
    have h1 : startNextRoundAuto conn roomId st =
        { st with transitions := transitionsAdd st.transitions conn roomId,
                  pendingBy := st.pendingBy ++ [conn] } := by
      simp [startNextRoundAuto, hm]
    refine ⟨by rw [h1]; simp [startNextRoundAuto, transitionsHas_add_same],
            by rw [h1], ?_⟩
    have hg1 : getRoom (startNextRoundAuto conn roomId st).store roomId = some room := by
      rw [h1]; exact hg
    have hnt1 : nextTurn (startNextRoundAuto conn roomId st).store roomId = some next := by
      rw [h1]; exact hnt
    obtain ⟨room', cr, hgr, hcr, hh, _, _⟩ :=
      runTransitionTask_store (startNextRoundAuto conn roomId st) conn roomId word svg png
        now drawOk room next hg1 hnt1
    obtain ⟨room2, hg2, hlen2, _⟩ :=
      endCurrentRound_len _ roomId room' cr hgr hcr
    exact ⟨room2, hg2, by rw [hlen2, hh]⟩

/-- Witness for C1 amended: concrete two-trigger run from one connection on
the demo room, followed by the cool-down body and the round's end, growing
the history from 0 to 1. -/
theorem transition_guard_amended_witness :
    (startNextRoundAuto "c1" "r1" (startNextRoundAuto "c1" "r1"
        { store := demoStore, transitions := [], pendingBy := [],
          timers := TimerSys.initial }) = startNextRoundAuto "c1" "r1"
        { store := demoStore, transitions := [], pendingBy := [],
          timers := TimerSys.initial }) ∧
    (startNextRoundAuto "c1" "r1"
        { store := demoStore, transitions := [], pendingBy := [],
          timers := TimerSys.initial }).pendingBy = [] ++ ["c1"] ∧
    ∃ room', getRoom ((endCurrentRound
        (runTransitionTask "c1" "r1" "dog" "s" "p" 7 true
          (startNextRoundAuto "c1" "r1"
            { store := demoStore, transitions := [], pendingBy := [],
              timers := TimerSys.initial })).store "r1").2) "r1" = some room' ∧
      room'.history.length = demoRoom.history.length + 1 :=
  transition_guard_amended.2.2.2.2
    { store := demoStore, transitions := [], pendingBy := [],
      timers := TimerSys.initial }
    "c1" "r1" "dog" "s" "p" 7 true demoRoom ("ai-gemini", some "google/gemini-1.5-pro")
    rfl (by decide) (by decide)

/-! ### C8: the early-end policy -/

/-- Scoring touches only player entries, never the current round. -/
theorem computeScores_currentRound (room : Room) (pid : String) :
    (computeScores room pid).currentRound = room.currentRound := by
  cases h : room.currentRound with
  | none => simp [computeScores, h]
  | some cr =>
      rw [computeScores_spec room cr pid h]
      exact h

/-- Scoring touches only player entries, never the history. -/
theorem computeScores_history (room : Room) (pid : String) :
    (computeScores room pid).history = room.history := by
  cases h : room.currentRound with
  | none => simp [computeScores, h]
  | some cr => rw [computeScores_spec room cr pid h]

/-- Scoring never changes the number of human (non-AI) players. -/
theorem filter_human_computeScores (room : Room) (cr : Round) (pid : String)
    (hcr : room.currentRound = some cr) :
    ((computeScores room pid).players.filter (fun p => !p.isAI)).length =
      (room.players.filter (fun p => !p.isAI)).length := by
  rw [computeScores_spec room cr pid hcr]
  cases h1 : ((cr.guesses.filter (fun g => g.correct)).length == 1 && cr.drawerId != "ai") with
  | false =>
      cases h2 : playersHas room.players pid with
      | false => simp [h1, h2]
      | true => simp [h1, h2, filter_human_addScore]
  | true =>
      cases h2 : playersHas room.players pid with
      | false =>
          cases h3 : playersHas room.players cr.drawerId with
          | false => simp [h1, h2, h3]
          | true => simp [h1, h2, h3, filter_human_addScore]
      | true =>
          cases h3 : playersHas (addScore room.players pid 10) cr.drawerId with
          | false => simp [h1, h2, h3, filter_human_addScore]
          | true => simp [h1, h2, h3, filter_human_addScore]

/-- A trigger never changes the store. -/
theorem startNextRoundAuto_store (conn roomId : String) (st : SchedState) :
    (startNextRoundAuto conn roomId st).store = st.store := by
  cases h : transitionsHas st.transitions conn roomId with
  | true => simp [startNextRoundAuto, h]
  | false => simp [startNextRoundAuto, h]

/-- The `playerGuess` handler on a freshly recorded guess: it ends the round
and triggers the next transition exactly when the updated correct-guess
count is positive and reaches the number of human (non-AI) players. -/
theorem playerGuessHandler_new (st : SchedState) (roomId pid guess : String)
    (room : Room) (cr : Round)
    (h : getRoom st.store roomId = some room)
    (hcr : room.currentRound = some cr)
    (hnew : cr.guesses.any (fun g => g.playerId == pid) = false) :
    playerGuessHandler roomId pid guess st =
      (if (((cr.guesses ++ [({ playerId := pid, guess := guess, correct := jsTrim (jsToLower guess) == cr.word } : GuessRec)]).filter
              (fun g => g.correct)).length > 0 ∧
           ((cr.guesses ++ [({ playerId := pid, guess := guess, correct := jsTrim (jsToLower guess) == cr.word } : GuessRec)]).filter
              (fun g => g.correct)).length ≥
             (room.players.filter (fun p => !p.isAI)).length)
       then startNextRoundAuto pid roomId
         { st with store := (endCurrentRound
             (setRoomEntry st.store roomId
               (if (jsTrim (jsToLower guess) == cr.word) then
                  (computeScores
                    { room with currentRound :=
                        (some { cr with guesses := cr.guesses ++
                            [{ playerId := pid, guess := guess, correct := jsTrim (jsToLower guess) == cr.word }] }) } pid)
                else
                  { room with currentRound :=
                      (some { cr with guesses := cr.guesses ++
                          [{ playerId := pid, guess := guess, correct := jsTrim (jsToLower guess) == cr.word }] }) }))
             roomId).2 }
       else
         { st with store := (setRoomEntry st.store roomId
             (if (jsTrim (jsToLower guess) == cr.word) then
                (computeScores
                  { room with currentRound :=
                      (some { cr with guesses := cr.guesses ++
                          [{ playerId := pid, guess := guess, correct := jsTrim (jsToLower guess) == cr.word }] }) } pid)
              else
                { room with currentRound :=
                    (some { cr with guesses := cr.guesses ++
                        [{ playerId := pid, guess := guess, correct := jsTrim (jsToLower guess) == cr.word }] }) })) }) := by
  have hrec := recordGuess_new st.store roomId room cr pid guess h hcr hnew
  cases hcorr : (jsTrim (jsToLower guess) == cr.word) with
  | false =>
      simp only [hcorr] at hrec ⊢
      simp [playerGuessHandler, h, hcr, hrec, getRoom_setRoomEntry_same]
  | true =>
      simp only [hcorr] at hrec ⊢
      have hfh := filter_human_computeScores
        { room with currentRound :=
            (some { cr with guesses := cr.guesses ++
                [{ playerId := pid, guess := guess, correct := true }] }) }
        ({ cr with guesses := cr.guesses ++
            [{ playerId := pid, guess := guess, correct := true }] }) pid rfl
      simp [playerGuessHandler, h, hcr, hrec, getRoom_setRoomEntry_same,
            computeScores_currentRound, hfh]

/-- An agents-only room mid-round: ai-gemini draws "dog" and three of the
four non-drawing agents have already recorded correct guesses. -/
def aiRound : Round :=
  { roundNumber := 1, word := "dog", drawerId := "ai-gemini", modelId := "m",
    startTime := 0,
    guesses := [{ playerId := "ai-chatgpt", guess := "dog", correct := true },
                { playerId := "ai-claude", guess := "dog", correct := true },
                { playerId := "ai-llama", guess := "dog", correct := true }],
    state := .guessing, svg := none, pngBase64 := none }

/-- The room holding `aiRound`. -/
def aiRoom : Room :=
  { id := "r1", players := initialAgents, currentRound := some aiRound,
    history := [], status := .inGame }

/-- Scheduler state over the agents-only room. -/
def aiSt : SchedState :=
  { store := [("r1", aiRoom)], transitions := [], pendingBy := [],
    timers := TimerSys.initial }

/-- C8 counterexample: the fourth and last non-drawing agent records a
correct guess through the AI-guess path, so the count of correct guesses
(4) reaches the number of eligible guessers (all 4 non-drawing players) —
yet the round does not end: the current round is still present and the
history is still empty.  The early-end check exists only in the human
`playerGuess` handler (and compares against the count of human players). -/
theorem early_end_ai_guess_cex :
    (((getRoom (onAIGuessHandler "r1" "ai-mistral" "dog" aiSt).store "r1").bind
        Room.currentRound).map
      (fun cr => (cr.guesses.filter (fun g => g.correct)).length)) = some 4 ∧
    (aiRoom.players.filter (fun p => p.id != aiRound.drawerId)).length = 4 ∧
    ((getRoom (onAIGuessHandler "r1" "ai-mistral" "dog" aiSt).store "r1").bind
        Room.currentRound).isSome = true ∧
    ((getRoom (onAIGuessHandler "r1" "ai-mistral" "dog" aiSt).store "r1").map
        Room.history) = some [] := by
  refine ⟨by decide, by decide, by decide, by decide⟩

/-- The round-end condition the human guess path actually tests, phrased on
the pre-record state: the correct-guess count after appending the new record
is positive and reaches the number of human (non-AI) players. -/
abbrev earlyEndCond (room : Room) (cr : Round) (pid guess : String) : Prop :=
  ((cr.guesses ++ [({ playerId := pid, guess := guess, correct := jsTrim (jsToLower guess) == cr.word } : GuessRec)]).filter
      (fun g => g.correct)).length > 0 ∧
  ((cr.guesses ++ [({ playerId := pid, guess := guess, correct := jsTrim (jsToLower guess) == cr.word } : GuessRec)]).filter
      (fun g => g.correct)).length ≥
    (room.players.filter (fun p => !p.isAI)).length

/-- C8 amended: the early-end check runs only in the human `playerGuess`
handler and compares the correct-guess count against the number of human
(non-AI) players in the room, not against all non-drawing players: after a
freshly recorded human-path guess the round ends (history +1, current round
cleared, next transition triggered) exactly when the updated correct count
is positive and at least the human count, and otherwise only the store's
guess/score data changes; a guess synthesized for an automated agent is
recorded and scored but never triggers any early end — the round's history
and the presence of its current round are untouched. -/
theorem early_end_policy_amended :
    (∀ (st : SchedState) (roomId pid guess : String) (room : Room) (cr : Round),
       getRoom st.store roomId = some room →
       room.currentRound = some cr →
       cr.guesses.any (fun g => g.playerId == pid) = false →
       ((earlyEndCond room cr pid guess →
         ∃ room', getRoom (playerGuessHandler roomId pid guess st).store roomId =
             some room' ∧
           room'.currentRound = none ∧
           room'.history.length = room.history.length + 1 ∧
           (transitionsHas st.transitions pid roomId = false →
             transitionsHas (playerGuessHandler roomId pid guess st).transitions
               pid roomId = true ∧
             (playerGuessHandler roomId pid guess st).pendingBy =
               st.pendingBy ++ [pid])) ∧
        (¬earlyEndCond room cr pid guess →
         ∃ room', getRoom (playerGuessHandler roomId pid guess st).store roomId =
             some room' ∧
           room'.currentRound.isSome = true ∧
           room'.history = room.history ∧
           (playerGuessHandler roomId pid guess st).transitions = st.transitions ∧
           (playerGuessHandler roomId pid guess st).pendingBy = st.pendingBy))) ∧
    (∀ (st : SchedState) (roomId pid guess : String),
       ((getRoom (onAIGuessHandler roomId pid guess st).store roomId).map Room.history) =
         ((getRoom st.store roomId).map Room.history) ∧
       ((getRoom (onAIGuessHandler roomId pid guess st).store roomId).bind
           Room.currentRound).isSome =
         ((getRoom st.store roomId).bind Room.currentRound).isSome ∧
       (onAIGuessHandler roomId pid guess st).transitions = st.transitions ∧
       (onAIGuessHandler roomId pid guess st).pendingBy = st.pendingBy) := by
  constructor
  · intro st roomId pid guess room cr h hcr hnew
    rw [playerGuessHandler_new st roomId pid guess room cr h hcr hnew]
    constructor
    · intro hcond
      rw [if_pos hcond]
      have hcur : (if (jsTrim (jsToLower guess) == cr.word) then
          (computeScores
            { room with currentRound :=
                (some { cr with guesses := cr.guesses ++
                    [{ playerId := pid, guess := guess, correct := jsTrim (jsToLower guess) == cr.word }] }) } pid)
        else
          { room with currentRound :=
              (some { cr with guesses := cr.guesses ++
                  [{ playerId := pid, guess := guess, correct := jsTrim (jsToLower guess) == cr.word }] }) }).currentRound =
          some { cr with guesses := cr.guesses ++
              [{ playerId := pid, guess := guess, correct := jsTrim (jsToLower guess) == cr.word }] } := by
        cases hcorr : (jsTrim (jsToLower guess) == cr.word) with
        | false => simp [hcorr]
        | true => simp [hcorr, computeScores_currentRound]
      have hhist : (if (jsTrim (jsToLower guess) == cr.word) then
          (computeScores
            { room with currentRound :=
                (some { cr with guesses := cr.guesses ++
                    [{ playerId := pid, guess := guess, correct := jsTrim (jsToLower guess) == cr.word }] }) } pid)
        else
          { room with currentRound :=
              (some { cr with guesses := cr.guesses ++
                  [{ playerId := pid, guess := guess, correct := jsTrim (jsToLower guess) == cr.word }] }) }).history =
          room.history := by
        cases hcorr : (jsTrim (jsToLower guess) == cr.word) with
        | false => simp [hcorr]
        | true => simp [hcorr, computeScores_history]
      obtain ⟨room', hgr, hlen, hnone⟩ :=
        endCurrentRound_len (setRoomEntry st.store roomId _) roomId _ _
          (getRoom_setRoomEntry_same _ _ _) hcur
      refine ⟨room', ?_, hnone, ?_, ?_⟩
      · rw [startNextRoundAuto_store]
        exact hgr
      · rw [hlen, hhist]
      · intro hm
        constructor
        · simp [startNextRoundAuto, hm, transitionsHas_add_same]
        · simp [startNextRoundAuto, hm]
    · intro hncond
      rw [if_neg hncond]
      refine ⟨_, getRoom_setRoomEntry_same _ _ _, ?_, ?_, rfl, rfl⟩
      · cases hcorr : (jsTrim (jsToLower guess) == cr.word) with
        | false => simp [hcorr]
        | true => simp [hcorr, computeScores_currentRound]
      · cases hcorr : (jsTrim (jsToLower guess) == cr.word) with
        | false => simp [hcorr]
        | true => simp [hcorr, computeScores_history]
  · intro st roomId pid guess
    cases hg : getRoom st.store roomId with
    | none => simp [onAIGuessHandler, hg]
    | some room =>
        cases hcr : room.currentRound with
        | none =>
            have hrec : recordGuess st.store roomId pid guess =
                .error .roomOrRoundNotFound := by
              simp [recordGuess, hg, hcr]
            simp [onAIGuessHandler, hg, hrec]
        | some cr =>
            cases hdup : cr.guesses.any (fun g => g.playerId == pid) with
            | true =>
                have hrec : recordGuess st.store roomId pid guess =
                    .ok ((cr, false), st.store) := by
                  simp [recordGuess, hg, hcr, hdup]
                simp [onAIGuessHandler, hg, hrec]
            | false =>
                have hrec := recordGuess_new st.store roomId room cr pid guess hg hcr hdup
                cases hcorr : (jsTrim (jsToLower guess) == cr.word) with
                | false =>
                    simp only [hcorr] at hrec
                    simp [onAIGuessHandler, hg, hrec, getRoom_setRoomEntry_same, hcr]
                | true =>
                    simp only [hcorr] at hrec
                    simp [onAIGuessHandler, hg, hrec, getRoom_setRoomEntry_same, hcr,
                          computeScores_currentRound, computeScores_history]

/-- Witness for C8 amended: on the human path, p2's correct guess (the
second of two humans) ends the round — history grows to 1 and the current
round is cleared; on the AI path at the agents-only state, ai-mistral's
guess leaves history and the current round's presence unchanged. -/
theorem early_end_policy_amended_witness :
    (∃ room', getRoom (playerGuessHandler "r1" "p2" "cat"
        { store := dupStore, transitions := [], pendingBy := [],
          timers := TimerSys.initial }).store "r1" = some room' ∧
      room'.currentRound = none ∧
      room'.history.length = dupRoom.history.length + 1 ∧
      (transitionsHas ({ store := dupStore, transitions := [], pendingBy := [],
                         timers := TimerSys.initial } : SchedState).transitions
          "p2" "r1" = false →
        transitionsHas (playerGuessHandler "r1" "p2" "cat"
          { store := dupStore, transitions := [], pendingBy := [],
            timers := TimerSys.initial }).transitions "p2" "r1" = true ∧
        (playerGuessHandler "r1" "p2" "cat"
          { store := dupStore, transitions := [], pendingBy := [],
            timers := TimerSys.initial }).pendingBy = [] ++ ["p2"])) ∧
    ((getRoom (onAIGuessHandler "r1" "ai-mistral" "dog" aiSt).store "r1").map
        Room.history) = ((getRoom aiSt.store "r1").map Room.history) :=
  ⟨(early_end_policy_amended.1
      { store := dupStore, transitions := [], pendingBy := [],
        timers := TimerSys.initial }
      "r1" "p2" "cat" dupRoom dupRound (by decide) rfl (by decide)).1 (by decide),
   (early_end_policy_amended.2 aiSt "r1" "ai-mistral" "dog").1⟩

/-! ### C9: the round timer -/

/-- Under unique keys, a room filters to at most one interval entry. -/
theorem filter_key_length_le_one (l : List (String × Nat)) (rid : String)
    (h : (l.map (fun e => e.1)).Nodup) :
    (l.filter (fun e => e.1 == rid)).length ≤ 1 := by
  induction l with
  | nil => simp
  | cons e rest ih =>
      rw [List.map_cons, List.nodup_cons] at h
      cases hb : (e.1 == rid) with
      | false =>
          rw [List.filter_cons_of_neg (by simp [hb])]
          exact ih h.2
      | true =>
          have hfc : List.filter (fun x => x.1 == rid) (e :: rest) =
              e :: List.filter (fun x => x.1 == rid) rest :=
            List.filter_cons_of_pos hb
          rw [hfc]
          have hrid : e.1 = rid := by simpa using hb
          have hempty : rest.filter (fun x => x.1 == rid) = [] := by
            rw [List.filter_eq_nil_iff]
            intro x hx
            intro hxb
            apply h.1
            have hx1 : x.1 = rid := by simpa using hxb
            rw [hrid, ← hx1]
            exact List.mem_map_of_mem _ hx
          rw [hempty]
          simp

/-- Removing a room's map entry removes exactly its interval id from the
scheduled tick sources. -/
theorem map_snd_filter_erase (l : List (String × Nat)) (roomId : String)
    (e0 : String × Nat)
    (hk : (l.map (fun e => e.1)).Nodup)
    (hs : (l.map (fun e => e.2)).Nodup)
    (hfind : l.find? (fun e => e.1 == roomId) = some e0) :
    (l.filter (fun e => e.1 != roomId)).map (fun e => e.2) =
      (l.map (fun e => e.2)).erase e0.2 := by
  induction l with
  | nil => simp at hfind
  | cons e rest ih =>
      rw [List.map_cons, List.nodup_cons] at hk hs
      cases hb : (e.1 == roomId) with
      | true =>
          have hfc : List.find? (fun x => x.1 == roomId) (e :: rest) = some e :=
            List.find?_cons_of_pos rest hb
          rw [hfc] at hfind
          have he0 : e0 = e := by simpa using hfind.symm
          subst he0
          have hrid : e0.1 = roomId := by simpa using hb
          have hfilter : rest.filter (fun x => x.1 != roomId) = rest := by
            rw [List.filter_eq_self]
            intro x hx
            have : x.1 ≠ roomId := by
              intro hx1
              apply hk.1
              rw [hrid, ← hx1]
              exact List.mem_map_of_mem _ hx
            simp [this]
          have hfc2 : List.filter (fun x => x.1 != roomId) (e0 :: rest) =
              List.filter (fun x => x.1 != roomId) rest :=
            List.filter_cons_of_neg (by simp [hrid])
          rw [hfc2, hfilter, List.map_cons, List.erase_cons_head]
      | false =>
          have hfc : List.find? (fun x => x.1 == roomId) (e :: rest) =
              List.find? (fun x => x.1 == roomId) rest :=
            List.find?_cons_of_neg rest (by simp [hb])
          rw [hfc] at hfind
          have he0mem : e0 ∈ rest := List.mem_of_find?_eq_some hfind
          have hsnd : e0.2 ∈ rest.map (fun e => e.2) := List.mem_map_of_mem _ he0mem
          have hne : e0.2 ≠ e.2 := fun heq => hs.1 (heq ▸ hsnd)
          have hfc2 : List.filter (fun x => x.1 != roomId) (e :: rest) =
              e :: List.filter (fun x => x.1 != roomId) rest :=
            List.filter_cons_of_pos (by simpa using hb)
          rw [hfc2, List.map_cons, List.map_cons,
              List.erase_cons_tail (by simpa using hne.symm), ih hk.2 hs.2 hfind]

/-- Stopping a room with no mapped interval is the identity. -/
theorem stopRoundTimer_none (t : TimerSys) (roomId : String)
    (h : intervalsGet t.roomIntervals roomId = none) :
    stopRoundTimer t roomId = t := by
  simp [stopRoundTimer, h]

/-- `nextId` is untouched by stopping. -/
theorem stopRoundTimer_nextId (t : TimerSys) (roomId : String) :
    (stopRoundTimer t roomId).nextId = t.nextId := by
  cases h : intervalsGet t.roomIntervals roomId with
  | none => simp [stopRoundTimer, h]
  | some i => simp [stopRoundTimer, h, clearTimerInterval]

/-- After stopping, the room has no interval entry left. -/
theorem stop_removes_key (t : TimerSys) (roomId : String) :
    ∀ e ∈ (stopRoundTimer t roomId).roomIntervals, (e.1 == roomId) = false := by
  intro e he
  cases h : intervalsGet t.roomIntervals roomId with
  | none =>
      rw [stopRoundTimer_none t roomId h] at he
      rw [intervalsGet] at h
      cases hf : t.roomIntervals.find? (fun x => x.1 == roomId) with
      | some x => rw [hf] at h; simp at h
      | none =>
          have := List.find?_eq_none.mp hf e he
          simpa using this
  | some i =>
      simp only [stopRoundTimer, h] at he
      have := (List.mem_filter.mp he).2
      simpa using this

/-- `stopRoundTimer` preserves well-formedness. -/
theorem stopRoundTimer_wf (t : TimerSys) (roomId : String) (h : t.wf) :
    (stopRoundTimer t roomId).wf := by
  obtain ⟨ha, hk, hs, hb⟩ := h
  cases hi : intervalsGet t.roomIntervals roomId with
  | none => rw [stopRoundTimer_none t roomId hi]; exact ⟨ha, hk, hs, hb⟩
  | some i =>
      have hfind : ∃ e0, t.roomIntervals.find? (fun e => e.1 == roomId) = some e0 ∧
          e0.2 = i := by
        rw [intervalsGet] at hi
        cases hf : t.roomIntervals.find? (fun e => e.1 == roomId) with
        | none => rw [hf] at hi; simp at hi
        | some e0 =>
            rw [hf] at hi
            exact ⟨e0, rfl, by simpa using hi⟩
      obtain ⟨e0, hf, he0i⟩ := hfind
      refine ⟨?_, ?_, ?_, ?_⟩
      · show (stopRoundTimer t roomId).active = _
        simp only [stopRoundTimer, hi, clearTimerInterval]
        rw [ha, map_snd_filter_erase t.roomIntervals roomId e0 hk hs hf, he0i]
      · simp only [stopRoundTimer, hi]
        exact hk.sublist (List.Sublist.map _ (List.filter_sublist _))
      · simp only [stopRoundTimer, hi]
        exact hs.sublist (List.Sublist.map _ (List.filter_sublist _))
      · simp only [stopRoundTimer, hi, clearTimerInterval]
        intro j hj
        exact hb j (List.erase_subset _ _ hj)

/-- `startRoundTimer` preserves well-formedness: the fresh interval becomes
the room's single mapped tick source. -/
theorem startRoundTimer_wf (t : TimerSys) (roomId : String) (h : t.wf) :
    (startRoundTimer t roomId).wf := by
  have hkey := stop_removes_key t roomId
  obtain ⟨ha, hk, hs, hb⟩ := stopRoundTimer_wf t roomId h
  simp only [startRoundTimer, TimerSys.wf]
  refine ⟨?_, ?_, ?_, ?_⟩
  · rw [List.map_cons, ha]
  · rw [List.map_cons, List.nodup_cons]
    constructor
    · intro hmem
      obtain ⟨e, he, he1⟩ := List.mem_map.mp hmem
      have := hkey e he
      rw [he1] at this
      simp at this
    · exact hk
  · rw [List.map_cons, List.nodup_cons]
    constructor
    · intro hmem
      rw [← ha] at hmem
      exact absurd (hb _ hmem) (by simp)
    · exact hs
  · intro j hj
    rcases List.mem_cons.mp hj with hj1 | hj2
    · omega
    · exact Nat.lt_succ_of_lt (hb j hj2)

/-- An interval whose tick source was discarded never fires again. -/
theorem runTicks_stopped (n : Nat) (st : CountdownState) (h : st.running = false) :
    runTicks n st = st := by
  induction n with
  | zero => rfl
  | succ k ih =>
      rw [runTicks, show timerTick true st = st from by simp [timerTick, h]]
      exact ih

/-- A running countdown with the room alive fires `onTimeUp` exactly once,
at the tick that exhausts `timeLeft`, and stops itself there. -/
theorem runTicks_count (n : Nat) : ∀ st : CountdownState, st.running = true →
    0 < st.timeLeft →
    (runTicks n st).timeUpCalls =
      st.timeUpCalls + (if st.timeLeft ≤ n then 1 else 0) ∧
    (runTicks n st).running = (if st.timeLeft ≤ n then false else true) := by
  induction n with
  | zero =>
      intro st h1 h2
      rw [if_neg (by omega), if_neg (by omega)]
      exact ⟨by simp [runTicks], by simp [runTicks, h1]⟩
  | succ k ih =>
      intro st h1 h2
      rw [runTicks]
      by_cases htl : st.timeLeft = 1
      · have htick : timerTick true st =
            { st with timeLeft := 0, tickCalls := st.tickCalls + 1,
                      running := false, timeUpCalls := st.timeUpCalls + 1 } := by
          simp [timerTick, h1, htl]
        rw [htick, runTicks_stopped k _ rfl, if_pos (by omega), if_pos (by omega)]
        exact ⟨rfl, rfl⟩
      · have hne : ¬(st.timeLeft - 1 = 0) := by omega
        have htick : timerTick true st =
            { st with timeLeft := st.timeLeft - 1, tickCalls := st.tickCalls + 1 } := by
          simp [timerTick, h1, hne]
        rw [htick]
        obtain ⟨hc, hr⟩ := ih { st with timeLeft := st.timeLeft - 1,
                                        tickCalls := st.tickCalls + 1 } h1
          (by show 0 < st.timeLeft - 1; omega)
        rw [hc, hr]
        by_cases hcase : st.timeLeft ≤ k + 1
        · rw [if_pos (by omega : st.timeLeft - 1 ≤ k), if_pos (by omega : st.timeLeft - 1 ≤ k),
              if_pos hcase, if_pos hcase]
          exact ⟨rfl, rfl⟩
        · rw [if_neg (by omega : ¬st.timeLeft - 1 ≤ k), if_neg (by omega : ¬st.timeLeft - 1 ≤ k),
              if_neg hcase, if_neg hcase]
          exact ⟨rfl, rfl⟩

/-- C9: stopping a room with no active timer is a no-op; starting and
stopping preserve the timer-system invariant (scheduled tick sources are
exactly the mapped intervals, with unique rooms and unique ids — hence at
most one active timer per room at any instant, and `startRoundTimer` first
discards any previous timer of the room); and a started 60-second countdown
with the room alive fires `onTimeUp` exactly once — at the 60th firing
opportunity — and stops itself there, so later firing opportunities change
nothing. -/
theorem round_timer_spec :
    (∀ (t : TimerSys) (roomId : String), intervalsGet t.roomIntervals roomId = none →
       stopRoundTimer t roomId = t) ∧
    (∀ (t : TimerSys) (roomId : String), t.wf →
       (stopRoundTimer t roomId).wf ∧ (startRoundTimer t roomId).wf) ∧
    (∀ (t : TimerSys) (roomId rid : String), t.wf →
       ((startRoundTimer t roomId).roomIntervals.filter
         (fun e => e.1 == rid)).length ≤ 1) ∧
    (∀ n, (runTicks n freshCountdown).timeUpCalls = if 60 ≤ n then 1 else 0) ∧
    (∀ n, 60 ≤ n → (runTicks n freshCountdown).running = false) := by
  refine ⟨stopRoundTimer_none,
          fun t roomId h => ⟨stopRoundTimer_wf t roomId h, startRoundTimer_wf t roomId h⟩,
          ?_, ?_, ?_⟩
  · intro t roomId rid h
    exact filter_key_length_le_one _ rid (startRoundTimer_wf t roomId h).2.1
  · intro n
    have h := runTicks_count n freshCountdown rfl (by simp [freshCountdown])
    rw [h.1]
    simp [freshCountdown]
  · intro n hn
    have h := runTicks_count n freshCountdown rfl (by simp [freshCountdown])
    rw [h.2]
    simp only [freshCountdown]
    rw [if_pos hn]

/-- Witness for C9: the empty timer system and a fresh 60-second countdown
instantiate every hypothesis. -/
theorem round_timer_spec_witness :
    stopRoundTimer TimerSys.initial "r1" = TimerSys.initial ∧
    (startRoundTimer TimerSys.initial "r1").wf ∧
    ((startRoundTimer TimerSys.initial "r1").roomIntervals.filter
      (fun e => e.1 == "r1")).length ≤ 1 ∧
    ((runTicks 60 freshCountdown).timeUpCalls = if 60 ≤ 60 then 1 else 0) ∧
    (60 ≤ 61 → (runTicks 61 freshCountdown).running = false) := by
  have hwf : TimerSys.initial.wf :=
    ⟨rfl, List.nodup_nil, List.nodup_nil, by simp [TimerSys.initial]⟩
  exact ⟨round_timer_spec.1 TimerSys.initial "r1" rfl,
         (round_timer_spec.2.1 TimerSys.initial "r1" hwf).2,
         round_timer_spec.2.2.1 TimerSys.initial "r1" "r1" hwf,
         round_timer_spec.2.2.2.1 60,
         round_timer_spec.2.2.2.2 61⟩

end AIScribble
